import Mathlib

/-
  Verification development for the mcp-tts-voicevox audio synthesis and
  playback queue engine.

  Shallow embedding of:
  - EventManager          (queue event publish/subscribe)
  - AudioFileManager      (temp-file persistence and deletion)
  - AudioGenerator        (per-item audio generation)
  - VoicevoxQueueManager  (the queue engine: enqueue, remove, clear,
                           playback loop, prefetch)

  The queue manager is embedded as a state-transition system whose atomic
  steps are the synchronous segments of the TypeScript methods between
  `await` suspension points; external outcomes (synthesis success or
  failure, device playback completion or failure) are separate steps.
  Side effects on the outside world (file deletions, device commands,
  console logging) and EventBus emissions are recorded in traces carried
  by the state.
-/

namespace Voicevox

/-- Per-item lifecycle states, from queue/types.ts (QueueItemStatus). -/
inductive QueueItemStatus where
  | pending
  | generating
  | ready
  | playing
  | done
  | paused
  | error
deriving DecidableEq, Repr

/-- A queue item, from queue/types.ts (QueueItem).  Ids are modelled as
naturals drawn from a fresh counter (uuidv4 in the source guarantees the
same uniqueness), temp-file paths as naturals, the opaque AudioQuery as a
presence flag, and the attached Error as a presence flag. -/
structure QueueItem where
  id : Nat
  speaker : Nat
  status : QueueItemStatus
  hasQuery : Bool
  tempFile : Option Nat
  hasError : Bool
deriving DecidableEq, Repr

/-- EventBus event types, from queue/types.ts (QueueEventType).  Events
carrying an item are recorded with the item's id. -/
inductive QueueEvent where
  | itemAdded (id : Nat)
  | itemRemoved (id : Nat)
  | itemStatusChanged (id : Nat) (st : QueueItemStatus)
  | queueCleared
  | playbackStarted
  | playbackPaused
  | playbackResumed
  | playbackCompleted
  | errorEvt (id : Nat)
deriving DecidableEq, Repr

/-- External side effects performed by the engine.  `deviceStop` is a
command the AudioPlayer interface would need for cancelling playback; no
code path of the source ever issues it (AudioPlayer exposes only
playAudio), which is what claim C3 is about. -/
inductive Effect where
  | deleteFile (p : Nat)
  | devicePlay (p : Nat)
  | deviceStop
  | consoleLog
deriving DecidableEq, Repr

/- ===================================================================
   EventManager (queue/event-manager.ts), modelled for one event type:
   the source keeps an independent listener array per QueueEventType in a
   Map, and every operation touches only the array of the given type.
   Handlers are identified by naturals; what a handler does when invoked
   is an environment parameter `beh`, where `Except.error` models the
   handler throwing.
   =================================================================== -/

/-- EventManager.addEventListener: appends the listener unless it is
already subscribed (the `includes` guard in the source). -/
def addEventListener (ls : List Nat) (l : Nat) : List Nat :=
  if l ∈ ls then ls else ls ++ [l]

/-- EventManager.emitEvent: synchronously invokes every subscribed
handler in order; a throw inside a handler is caught and logged
(console.error) and dispatch continues.  Returns the invocation order
and the logged errors; the return type carries no exception because
emitEvent never rethrows. -/
def emitEvent (ls : List Nat) (beh : Nat → Except String Unit) :
    List Nat × List String :=
  ls.foldl
    (fun acc l =>
      match beh l with
      | Except.ok _ => (acc.1 ++ [l], acc.2)
      | Except.error e => (acc.1 ++ [l], acc.2 ++ [e]))
    ([], [])

/-- Listener lists built by any sequence of addEventListener calls on a
freshly constructed EventManager (the constructor initialises the array
to []). -/
def subscribeAll (subs : List Nat) : List Nat :=
  subs.foldl addEventListener []

/- ===================================================================
   AudioFileManager.deleteTempFile (queue/file-manager.ts), Node path.
   The filesystem is a list of existing paths; `fsUnlink` models
   fs/promises.unlink, which throws ENOENT when the path is absent and
   may throw another error (modelled by the `failing` oracle) when it is
   present.  deleteTempFile's Except return type is where a rethrow to
   the caller would appear; the source catches everything, ignores
   ENOENT, and only logs other failures.
   =================================================================== -/

inductive UnlinkError where
  | enoent
  | other (msg : String)
deriving DecidableEq, Repr

/-- Outcome of a deleteTempFile call: the remaining filesystem and how
many non-ENOENT failures were logged via console.error. -/
structure DeleteOutcome where
  fs : List String
  loggedErrors : Nat
deriving DecidableEq, Repr

/-- fs/promises.unlink as the engine sees it. -/
def fsUnlink (fs : List String) (p : String) (failing : Bool) :
    Except UnlinkError (List String) :=
  if p ∈ fs then
    if failing then Except.error (UnlinkError.other "EACCES")
    else Except.ok (fs.erase p)
  else Except.error UnlinkError.enoent

/-- AudioFileManager.deleteTempFile: try/catch around unlink; ENOENT is
silently ignored, any other failure is logged, nothing is rethrown. -/
def deleteTempFile (fs : List String) (p : String) (failing : Bool) :
    Except UnlinkError DeleteOutcome :=
  match fsUnlink fs p failing with
  | Except.ok fsNew => Except.ok ⟨fsNew, 0⟩
  | Except.error UnlinkError.enoent => Except.ok ⟨fs, 0⟩
  | Except.error (UnlinkError.other _) => Except.ok ⟨fs, 1⟩

/- ===================================================================
   VoicevoxQueueManager (queue/manager.ts), embedded as a transition
   system.  One state step is the synchronous run of a method between
   `await` suspension points (JavaScript runs these segments without
   interleaving); the completion or failure of an awaited synthesis call
   and of an awaited device playback are separate steps.  Temp-file
   paths are modelled by the owning item's id.
   =================================================================== -/

/-- The queue manager's mutable fields plus the traces of emitted events
and performed external effects. -/
structure MState where
  queue : List QueueItem
  isPlaying : Bool
  isPaused : Bool
  prefetchSize : Nat
  current : Option Nat
  nextId : Nat
  events : List QueueEvent
  effects : List Effect
deriving DecidableEq, Repr

def addEvent (e : QueueEvent) (s : MState) : MState :=
  { s with events := s.events ++ [e] }

def addEffect (e : Effect) (s : MState) : MState :=
  { s with effects := s.effects ++ [e] }

/-- In-place mutation `item.status = st` of the (unique) item object with
the given id, as seen through the live collection. -/
def setStatus (i : Nat) (st : QueueItemStatus) (q : List QueueItem) :
    List QueueItem :=
  q.map (fun it => if it.id = i then { it with status := st } else it)

/-- In-place mutation `item.tempFile = p`. -/
def setTempFile (i : Nat) (p : Nat) (q : List QueueItem) : List QueueItem :=
  q.map (fun it => if it.id = i then { it with tempFile := some p } else it)

/-- In-place mutation `item.error = ...`. -/
def setErrorFlag (i : Nat) (q : List QueueItem) : List QueueItem :=
  q.map (fun it => if it.id = i then { it with hasError := true } else it)

/-- queue.find(item => item.id === itemId). -/
def findItem (i : Nat) (q : List QueueItem) : Option QueueItem :=
  q.find? (fun it => it.id == i)

/-- queue.splice(index, 1) after findIndex on the id. -/
def removeFirst (i : Nat) (q : List QueueItem) : List QueueItem :=
  match q with
  | [] => []
  | it :: t => if it.id = i then t else it :: removeFirst i t

/-- VoicevoxQueueManager.updateItemStatus: sets the status and emits
ITEM_STATUS_CHANGED.  (The prefetchAudio/processQueue calls it triggers
on READY are separate steps of the transition system.) -/
def updateItemStatus (i : Nat) (st : QueueItemStatus) (s : MState) : MState :=
  addEvent (QueueEvent.itemStatusChanged i st)
    { s with queue := setStatus i st s.queue }

/-- VoicevoxQueueManager.removeItem: false if the id is absent; otherwise
deletes the temp file if there is one, splices the item out, emits
ITEM_REMOVED, and clears currentPlayingItem when it pointed at the
removed item.  (No stop command is ever sent to the playback device: the
stop branch of the source is a bookkeeping-only TODO.) -/
def removeItem (i : Nat) (s : MState) : Bool × MState :=
  match findItem i s.queue with
  | none => (false, s)
  | some it =>
    let s1 := match it.tempFile with
      | some p => addEffect (Effect.deleteFile p) s
      | none => s
    let s2 := addEvent (QueueEvent.itemRemoved i)
      { s1 with queue := removeFirst i s1.queue }
    (true,
     { s2 with current := if s2.current = some i then none else s2.current })

/-- VoicevoxQueueManager.enqueueQuery: creates a PENDING item carrying
the query, appends it, emits ITEM_ADDED, and fire-and-forgets
generateAudioFromQuery, whose synchronous head immediately moves the
fresh item (PENDING, query present) to GENERATING.  enqueueText has the
same state effect after its awaited generateQuery round trip. -/
def enqueueQuery (speaker : Nat) (s : MState) : MState :=
  let item : QueueItem :=
    { id := s.nextId, speaker := speaker, status := QueueItemStatus.pending,
      hasQuery := true, tempFile := none, hasError := false }
  let s1 := addEvent (QueueEvent.itemAdded item.id)
    { s with queue := s.queue ++ [item], nextId := s.nextId + 1 }
  updateItemStatus item.id QueueItemStatus.generating s1

/-- Completion of an awaited synthesize + temp-file write for item i:
the continuation of generateAudioFromQuery/generateAudio records the
temp file and moves the item to READY. -/
def genOk (i : Nat) (s : MState) : MState :=
  match findItem i s.queue with
  | some it =>
    if it.status = QueueItemStatus.generating then
      updateItemStatus i QueueItemStatus.ready
        { s with queue := setTempFile i i s.queue }
    else s
  | none => s

/-- Failure of an awaited synthesize for item i: the catch block of the
generator attaches the error and moves the item to ERROR (emitting only
ITEM_STATUS_CHANGED), then rethrows; the fire-and-forget .catch in
enqueueQuery/prefetchAudio merely logs to the console.  The item is not
removed and no ERROR event is emitted — claim C1 is about this. -/
def genFail (i : Nat) (s : MState) : MState :=
  match findItem i s.queue with
  | some it =>
    if it.status = QueueItemStatus.generating then
      addEffect Effect.consoleLog
        (updateItemStatus i QueueItemStatus.error
          { s with queue := setErrorFlag i s.queue })
    else s
  | none => s

/-- queue.find(item => item.status === READY). -/
def firstReady (q : List QueueItem) : Option QueueItem :=
  q.find? (fun it => decide (it.status = QueueItemStatus.ready))

/-- VoicevoxQueueManager.startPlayback. -/
def startPlayback (s : MState) : MState :=
  match s.isPlaying with
  | true => s
  | false =>
    addEvent QueueEvent.playbackStarted
      { s with isPlaying := true, isPaused := false }

/-- VoicevoxQueueManager.pausePlayback. -/
def pausePlayback (s : MState) : MState :=
  match s.isPlaying, s.isPaused with
  | true, false =>
    let s1 := { s with isPaused := true }
    let s2 := match s1.current with
      | some i => updateItemStatus i QueueItemStatus.paused s1
      | none => s1
    addEvent QueueEvent.playbackPaused s2
  | _, _ => s

/-- VoicevoxQueueManager.resumePlayback. -/
def resumePlayback (s : MState) : MState :=
  match s.isPlaying, s.isPaused with
  | true, true =>
    let s1 := { s with isPaused := false }
    let s2 := match s1.current with
      | some i => updateItemStatus i QueueItemStatus.playing s1
      | none => s1
    addEvent QueueEvent.playbackResumed s2
  | _, _ => s

/-- Synchronous head of VoicevoxQueueManager.processQueue: when playback
is enabled, not paused, and nothing is currently playing, pick the first
READY item, mark it PLAYING, remember it as current, and start device
playback of its temp file. -/
def processQueueStep (s : MState) : MState :=
  match s.isPlaying, s.isPaused, s.current with
  | true, false, none =>
    match firstReady s.queue with
    | some it =>
      match it.tempFile with
      | some p =>
        addEffect (Effect.devicePlay p)
          (updateItemStatus it.id QueueItemStatus.playing
            { s with current := some it.id })
      | none => s
    | none => s
  | _, _, _ => s

/-- Synchronous head of VoicevoxQueueManager.playNext: forces the
playback flags on, then behaves like processQueueStep but also emits
PLAYBACK_STARTED. -/
def playNextStep (s : MState) : MState :=
  let s0 := { s with isPlaying := true, isPaused := false }
  match s0.current with
  | some _ => s0
  | none =>
    match firstReady s0.queue with
    | some it =>
      match it.tempFile with
      | some p =>
        addEffect (Effect.devicePlay p)
          (addEvent QueueEvent.playbackStarted
            (updateItemStatus it.id QueueItemStatus.playing
              { s0 with current := some it.id }))
      | none => s0
    | none => s0

/-- Continuation after an awaited playAudio resolves: the current item is
marked DONE, currentPlayingItem is cleared, the item is removed (its
temp file deleted), and PLAYBACK_COMPLETED is emitted.  (The trailing
recursive processQueue call is a separate step.) -/
def playFinishOk (s : MState) : MState :=
  match s.current with
  | none => s
  | some i =>
    let s1 := updateItemStatus i QueueItemStatus.done s
    let s2 := { s1 with current := none }
    let s3 := (removeItem i s2).2
    addEvent QueueEvent.playbackCompleted s3

/-- Continuation after an awaited playAudio rejects: the error is logged,
attached to the item, the item is marked ERROR, an ERROR event is
emitted, the item is removed (removeItem also clears current, which at
this point still holds the item), and current is reset. -/
def playFinishErr (s : MState) : MState :=
  match s.current with
  | none => s
  | some i =>
    let s1 := addEffect Effect.consoleLog s
    let s2 := updateItemStatus i QueueItemStatus.error
      { s1 with queue := setErrorFlag i s1.queue }
    let s3 := addEvent (QueueEvent.errorEvt i) s2
    let s4 := (removeItem i s3).2
    { s4 with current := none }

/-- Items counted by the prefetch policy as in flight. -/
def countGR (q : List QueueItem) : Nat :=
  q.countP (fun it =>
    decide (it.status = QueueItemStatus.generating) ||
    decide (it.status = QueueItemStatus.ready))

/-- Synchronous head of one generation started by prefetchAudio on a
PENDING item (generateAudioFromQuery when the item has a query,
generateAudio otherwise; both immediately mark the item GENERATING). -/
def startGen (s : MState) (i : Nat) : MState :=
  updateItemStatus i QueueItemStatus.generating s

/-- VoicevoxQueueManager.prefetchAudio: computes
needed = prefetchSize - count(GENERATING or READY) and starts generation
for the first `needed` PENDING items.  (JavaScript's possibly negative
`needed` guarded by `> 0` coincides with truncated Nat subtraction.) -/
def prefetchAudio (s : MState) : MState :=
  let pendingIds :=
    (s.queue.filter (fun it => decide (it.status = QueueItemStatus.pending))).map
      (fun it => it.id)
  let needed := s.prefetchSize - countGR s.queue
  (pendingIds.take needed).foldl startGen s

/-- VoicevoxQueueManager.clearQueue: snapshots the ids, removes each via
removeItem, empties the collection, resets the playback flags and the
current reference, and emits QUEUE_CLEARED. -/
def removeAll (ids : List Nat) (s : MState) : MState :=
  ids.foldl (fun st i => (removeItem i st).2) s

def clearQueue (s : MState) : MState :=
  let s1 := removeAll (s.queue.map (fun it => it.id)) s
  addEvent QueueEvent.queueCleared
    { s1 with queue := [], isPlaying := false, isPaused := false,
              current := none }

/-- The operations whose interleavings claims C1, C2 and C4 quantify
over: the enqueue entry points and the steps of the generation and
playback machinery. -/
inductive QOp where
  | enq (speaker : Nat)
  | gok (i : Nat)
  | gfail (i : Nat)
  | startPB
  | pausePB
  | resumePB
  | procQ
  | playNextQ
  | finOk
  | finErr
  | prefetchQ
deriving DecidableEq, Repr

def applyOp (s : MState) (o : QOp) : MState :=
  match o with
  | QOp.enq sp => enqueueQuery sp s
  | QOp.gok i => genOk i s
  | QOp.gfail i => genFail i s
  | QOp.startPB => startPlayback s
  | QOp.pausePB => pausePlayback s
  | QOp.resumePB => resumePlayback s
  | QOp.procQ => processQueueStep s
  | QOp.playNextQ => playNextStep s
  | QOp.finOk => playFinishOk s
  | QOp.finErr => playFinishErr s
  | QOp.prefetchQ => prefetchAudio s

/-- A freshly constructed manager with the given prefetchSize (the
constructor default is 2). -/
def initState (ps : Nat) : MState :=
  { queue := [], isPlaying := false, isPaused := false, prefetchSize := ps,
    current := none, nextId := 0, events := [], effects := [] }

/-- The state after a sequence of operations on a fresh manager. -/
def runOps (ops : List QOp) (ps : Nat) : MState :=
  ops.foldl applyOp (initState ps)

/-- Whether an item occupies the playback slot (PLAYING or PAUSED). -/
def isPP (it : QueueItem) : Bool :=
  decide (it.status = QueueItemStatus.playing) ||
  decide (it.status = QueueItemStatus.paused)

/-- Number of PLAYING or PAUSED items in the live collection. -/
def countPP (q : List QueueItem) : Nat := q.countP isPP

/-- Inductive invariant for the playback mutual exclusion: every PLAYING
or PAUSED item is the one currentPlayingItem points at, ids are
pairwise distinct, and all ids are below the freshness counter. -/
def PlayInv (s : MState) : Prop :=
  (∀ it ∈ s.queue, isPP it = true → s.current = some it.id) ∧
  (s.queue.map (fun it => it.id)).Nodup ∧
  (∀ it ∈ s.queue, it.id < s.nextId)

/- ===================================================================
   AudioGenerator (queue/audio-generator.ts), per-call functional model.
   A whole generator invocation is one sequential async function; the
   outcome of each awaited collaborator call (query round trip,
   synthesize, temp-file write) is an oracle argument.
   =================================================================== -/

/-- Collaborator calls the generator awaits, in order. -/
inductive GenCall where
  | genQuery
  | synthesize
  | saveTempAudioFile
deriving DecidableEq, Repr

/-- Result of one generator invocation: the item as the call leaves it,
the awaited collaborator calls made, the statuses pushed through the
updateStatus callback, and whether the call rethrew to its caller. -/
structure GenRun where
  item : QueueItem
  calls : List GenCall
  callbacks : List QueueItemStatus
  thrown : Bool
deriving DecidableEq, Repr

/-- AudioGenerator.generateAudio: returns immediately unless the item is
PENDING; otherwise GENERATING → query round trip → synthesize →
temp-file write → READY, any failure attaching the error, reporting
ERROR through the callback and rethrowing. -/
def generateAudio (it : QueueItem) (queryOk synthOk saveOk : Bool) :
    GenRun :=
  let okItem : QueueItem :=
    { it with status := QueueItemStatus.ready, hasQuery := true,
              tempFile := some it.id }
  let errItemQ : QueueItem :=
    { it with status := QueueItemStatus.error, hasQuery := true,
              hasError := true }
  let errItem : QueueItem :=
    { it with status := QueueItemStatus.error, hasError := true }
  if it.status = QueueItemStatus.pending then
    if queryOk then
      if synthOk then
        if saveOk then
          ⟨okItem,
           [GenCall.genQuery, GenCall.synthesize, GenCall.saveTempAudioFile],
           [QueueItemStatus.generating, QueueItemStatus.ready], false⟩
        else
          ⟨errItemQ,
           [GenCall.genQuery, GenCall.synthesize, GenCall.saveTempAudioFile],
           [QueueItemStatus.generating, QueueItemStatus.error], true⟩
      else
        ⟨errItemQ,
         [GenCall.genQuery, GenCall.synthesize],
         [QueueItemStatus.generating, QueueItemStatus.error], true⟩
    else
      ⟨errItem,
       [GenCall.genQuery],
       [QueueItemStatus.generating, QueueItemStatus.error], true⟩
  else ⟨it, [], [], false⟩

/-- AudioGenerator.generateAudioFromQuery: additionally a no-op when the
item carries no query; skips the query round trip otherwise. -/
def generateAudioFromQuery (it : QueueItem) (synthOk saveOk : Bool) :
    GenRun :=
  let okItem : QueueItem :=
    { it with status := QueueItemStatus.ready, tempFile := some it.id }
  let errItem : QueueItem :=
    { it with status := QueueItemStatus.error, hasError := true }
  if it.status = QueueItemStatus.pending ∧ it.hasQuery = true then
    if synthOk then
      if saveOk then
        ⟨okItem,
         [GenCall.synthesize, GenCall.saveTempAudioFile],
         [QueueItemStatus.generating, QueueItemStatus.ready], false⟩
      else
        ⟨errItem,
         [GenCall.synthesize, GenCall.saveTempAudioFile],
         [QueueItemStatus.generating, QueueItemStatus.error], true⟩
    else
      ⟨errItem,
       [GenCall.synthesize],
       [QueueItemStatus.generating, QueueItemStatus.error], true⟩
  else ⟨it, [], [], false⟩

/- ===================================================================
   Concrete states used by trace theorems and witnesses.
   =================================================================== -/

/-- State after one enqueueQuery whose background synthesize rejected. -/
def failedGenState : MState := runOps [QOp.enq 1, QOp.gfail 0] 2

/-- State after three rapid enqueueQuery calls, none of whose synthesize
round trips has completed yet. -/
def rapidEnqueueState : MState := runOps [QOp.enq 1, QOp.enq 1, QOp.enq 1] 2

/-- A queue item currently being played. -/
def playingWitnessItem : QueueItem :=
  { id := 0, speaker := 1, status := QueueItemStatus.playing,
    hasQuery := true, tempFile := some 0, hasError := false }

/-- A manager state in which playingWitnessItem is the current item. -/
def playingWitnessState : MState :=
  { queue := [playingWitnessItem], isPlaying := true, isPaused := false,
    prefetchSize := 2, current := some 0, nextId := 1, events := [],
    effects := [] }

/-- A manager state holding one PENDING item, used to witness the
prefetch-pass bound. -/
def pendingWitnessState : MState :=
  { queue := [{ id := 0, speaker := 1, status := QueueItemStatus.pending,
                hasQuery := true, tempFile := none, hasError := false }],
    isPlaying := false, isPaused := false, prefetchSize := 2,
    current := none, nextId := 1, events := [], effects := [] }

/-- A manager state holding two READY items with artifacts and one
PENDING item, used to witness clearQueue. -/
def mixedWitnessState : MState :=
  { queue := [{ id := 0, speaker := 1, status := QueueItemStatus.ready,
                hasQuery := true, tempFile := some 0, hasError := false },
              { id := 1, speaker := 1, status := QueueItemStatus.playing,
                hasQuery := true, tempFile := some 1, hasError := false },
              { id := 2, speaker := 1, status := QueueItemStatus.pending,
                hasQuery := true, tempFile := none, hasError := false }],
    isPlaying := true, isPaused := false, prefetchSize := 2,
    current := some 1, nextId := 3, events := [], effects := [] }

/- ===================================================================
   Theorems.
   =================================================================== -/

theorem emitEvent_foldl_spec (ls : List Nat) (beh : Nat → Except String Unit) :
    ∀ acc : List Nat × List String,
      ls.foldl
        (fun acc l =>
          match beh l with
          | Except.ok _ => (acc.1 ++ [l], acc.2)
          | Except.error e => (acc.1 ++ [l], acc.2 ++ [e]))
        acc
      = (acc.1 ++ ls,
         acc.2 ++ ls.filterMap
           (fun l => match beh l with
             | Except.ok _ => none
             | Except.error e => some e)) := by
  induction ls with
  | nil => intro acc; simp
  | cons hd tl ih =>
    intro acc
    cases hbeh : beh hd with
    | ok v => simp [List.foldl_cons, hbeh, ih, List.append_assoc]
    | error e => simp [List.foldl_cons, hbeh, ih, List.append_assoc]

theorem emitEvent_fst (ls : List Nat) (beh : Nat → Except String Unit) :
    (emitEvent ls beh).1 = ls := by
  unfold emitEvent
  rw [emitEvent_foldl_spec]
  simp

theorem emitEvent_snd (ls : List Nat) (beh : Nat → Except String Unit) :
    (emitEvent ls beh).2
      = ls.filterMap
          (fun l => match beh l with
            | Except.ok _ => none
            | Except.error e => some e) := by
  unfold emitEvent
  rw [emitEvent_foldl_spec]
  simp

theorem addEventListener_nodup (ls : List Nat) (l : Nat) (h : ls.Nodup) :
    (addEventListener ls l).Nodup := by
  unfold addEventListener
  split
  · exact h
  · next hmem =>
      refine List.Nodup.append h (List.nodup_singleton l) ?_
      intro a ha hb
      simp at hb
      exact hmem (hb ▸ ha)

theorem subscribeAll_nodup (subs : List Nat) : (subscribeAll subs).Nodup := by
  unfold subscribeAll
  suffices h : ∀ acc : List Nat, acc.Nodup → (subs.foldl addEventListener acc).Nodup by
    exact h [] List.nodup_nil
  induction subs with
  | nil => intro acc hacc; simpa using hacc
  | cons hd tl ih =>
    intro acc hacc
    exact ih (addEventListener acc hd) (addEventListener_nodup acc hd hacc)

/-- C8: dispatch is synchronous and in subscription order; a handler that
throws is caught and logged (its error shows up in the log, not as an
exception), and every later handler is still invoked: the invocation
trace equals the whole listener list whatever each handler does, and the
log collects exactly the thrown errors in order. -/
theorem emitEvent_invokes_all_in_order (ls : List Nat)
    (beh : Nat → Except String Unit) :
    (emitEvent ls beh).1 = ls ∧
    (emitEvent ls beh).2
      = ls.filterMap
          (fun l => match beh l with
            | Except.ok _ => none
            | Except.error e => some e) :=
  ⟨emitEvent_fst ls beh, emitEvent_snd ls beh⟩

/-- C10: re-subscribing an already subscribed handler leaves the listener
list unchanged, so after any sequence of addEventListener calls a
publication invokes each handler at most once. -/
theorem addEventListener_idempotent (subs : List Nat) (l : Nat)
    (beh : Nat → Except String Unit) :
    (l ∈ subscribeAll subs →
      addEventListener (subscribeAll subs) l = subscribeAll subs) ∧
    (emitEvent (subscribeAll subs) beh).1.count l ≤ 1 := by
  constructor
  · intro hmem
    unfold addEventListener
    exact if_pos hmem
  · rw [emitEvent_fst]
    exact List.nodup_iff_count_le_one.mp (subscribeAll_nodup subs) l

theorem addEventListener_idempotent_witness :
    (1 ∈ subscribeAll [1, 2, 1] →
      addEventListener (subscribeAll [1, 2, 1]) 1 = subscribeAll [1, 2, 1]) ∧
    (emitEvent (subscribeAll [1, 2, 1]) (fun _ => Except.ok ())).1.count 1 ≤ 1 :=
  addEventListener_idempotent [1, 2, 1] 1 (fun _ => Except.ok ())

/-- C7: deleteTempFile never raises to the caller — on any filesystem and
any unlink outcome the call returns normally, a second call on the same
path returns normally as well, a missing file is silently ignored (no
log entry), and a non-ENOENT failure is logged rather than thrown. -/
theorem deleteTempFile_idempotent_never_throws (fs : List String) (p : String)
    (f1 f2 : Bool) :
    (deleteTempFile fs p f1).isOk = true ∧
    (∀ o : DeleteOutcome, deleteTempFile fs p f1 = Except.ok o →
      (deleteTempFile o.fs p f2).isOk = true) ∧
    (p ∉ fs → deleteTempFile fs p f1 = Except.ok ⟨fs, 0⟩) ∧
    (p ∈ fs → f1 = true → deleteTempFile fs p f1 = Except.ok ⟨fs, 1⟩) := by
  refine ⟨?_, ?_, ?_, ?_⟩
  · unfold deleteTempFile fsUnlink
    split <;> simp [Except.isOk, Except.toBool]
  · intro o _
    unfold deleteTempFile fsUnlink
    split <;> simp [Except.isOk, Except.toBool]
  · intro hmem
    unfold deleteTempFile fsUnlink
    simp [hmem]
  · intro hmem hf
    unfold deleteTempFile fsUnlink
    simp [hmem, hf]

theorem deleteTempFile_idempotent_never_throws_witness :
    (deleteTempFile ["a.wav"] "a.wav" false).isOk = true ∧
    (∀ o : DeleteOutcome, deleteTempFile ["a.wav"] "a.wav" false = Except.ok o →
      (deleteTempFile o.fs "a.wav" false).isOk = true) ∧
    ("a.wav" ∉ (["a.wav"] : List String) →
      deleteTempFile ["a.wav"] "a.wav" false = Except.ok ⟨["a.wav"], 0⟩) ∧
    ("a.wav" ∈ (["a.wav"] : List String) → false = true →
      deleteTempFile ["a.wav"] "a.wav" false = Except.ok ⟨["a.wav"], 1⟩) :=
  deleteTempFile_idempotent_never_throws ["a.wav"] "a.wav" false false

/- ===================================================================
   Claims C6, C3, C1, C2.
   =================================================================== -/

/-- C6: removeItem on an id that no live item carries returns false and
the state — queue, event trace, effect trace, everything — is unchanged:
no EventBus emission and no artifact deletion happens. -/
theorem removeItem_missing_id_noop (s : MState) (i : Nat)
    (h : ∀ it ∈ s.queue, it.id ≠ i) :
    (removeItem i s).1 = false ∧ (removeItem i s).2 = s := by
  have hf : findItem i s.queue = none := by
    unfold findItem
    rw [List.find?_eq_none]
    intro it hmem
    simpa using h it hmem
  unfold removeItem
  rw [hf]
  exact ⟨rfl, rfl⟩

theorem removeItem_missing_id_noop_witness :
    (∀ it ∈ (enqueueQuery 1 (initState 2)).queue, it.id ≠ 5) ∧
    (removeItem 5 (enqueueQuery 1 (initState 2))).1 = false ∧
    (removeItem 5 (enqueueQuery 1 (initState 2))).2 = enqueueQuery 1 (initState 2) :=
  ⟨by decide, removeItem_missing_id_noop (enqueueQuery 1 (initState 2)) 5 (by decide)⟩

/-- C3 (code bug in the source): removing the currently playing item
returns true, deletes its artifact, emits ITEM_REMOVED and clears the
currentPlayingItem reference, but no stop command ever reaches the
playback device — the stop branch of removeItem is an unimplemented
TODO and the AudioPlayer interface offers no stop operation at all. -/
theorem removeItem_playing_never_stops_device (s : MState) (i : Nat)
    (it : QueueItem) (hc : s.current = some i)
    (hf : findItem i s.queue = some it)
    (hstop : Effect.deviceStop ∉ s.effects) :
    (removeItem i s).1 = true ∧
    ((removeItem i s).2).current = none ∧
    QueueEvent.itemRemoved i ∈ ((removeItem i s).2).events ∧
    (∀ p, it.tempFile = some p →
      Effect.deleteFile p ∈ ((removeItem i s).2).effects) ∧
    Effect.deviceStop ∉ ((removeItem i s).2).effects := by
  cases htf : it.tempFile with
  | none =>
    refine ⟨?_, ?_, ?_, ?_, ?_⟩
    · simp [removeItem, hf, htf]
    · simp [removeItem, hf, htf, addEvent, hc]
    · simp [removeItem, hf, htf, addEvent, hc]
    · intro p hp
      cases hp
    · simp [removeItem, hf, htf, addEvent, hc]
      exact hstop
  | some p =>
    refine ⟨?_, ?_, ?_, ?_, ?_⟩
    · simp [removeItem, hf, htf]
    · simp [removeItem, hf, htf, addEvent, addEffect, hc]
    · simp [removeItem, hf, htf, addEvent, addEffect, hc]
    · intro p2 hp2
      injection hp2 with hpe
      subst hpe
      simp [removeItem, hf, htf, addEvent, addEffect, hc]
    · simp [removeItem, hf, htf, addEvent, addEffect, hc]
      exact hstop

theorem removeItem_playing_never_stops_device_witness :
    (playingWitnessState.current = some 0) ∧
    (findItem 0 playingWitnessState.queue = some playingWitnessItem) ∧
    (Effect.deviceStop ∉ playingWitnessState.effects) ∧
    ((removeItem 0 playingWitnessState).1 = true ∧
     ((removeItem 0 playingWitnessState).2).current = none ∧
     QueueEvent.itemRemoved 0 ∈ ((removeItem 0 playingWitnessState).2).events ∧
     (∀ p, playingWitnessItem.tempFile = some p →
       Effect.deleteFile p ∈ ((removeItem 0 playingWitnessState).2).effects) ∧
     Effect.deviceStop ∉ ((removeItem 0 playingWitnessState).2).effects) :=
  ⟨by decide, by decide, by decide,
   removeItem_playing_never_stops_device playingWitnessState 0 playingWitnessItem
     (by decide) (by decide) (by decide)⟩


/-- C1 (code bug in the source): after an enqueueQuery whose background
synthesize call rejects, the item is marked ERROR with the error
attached, but no ERROR event is ever published and the item stays in the
live collection — the fire-and-forget rejection is swallowed by the
console.error in enqueueQuery's bare .catch. -/
theorem generation_failure_swallowed :
    findItem 0 failedGenState.queue =
      some { id := 0, speaker := 1, status := QueueItemStatus.error,
             hasQuery := true, tempFile := none, hasError := true } ∧
    QueueEvent.errorEvt 0 ∉ failedGenState.events ∧
    QueueEvent.itemRemoved 0 ∉ failedGenState.events ∧
    Effect.consoleLog ∈ failedGenState.effects := by decide

/-- C2 counterexample: three rapid enqueueQuery calls put three items
into GENERATING at once, because enqueueQuery starts generation for
every new item unconditionally instead of going through the prefetch
bound; count(GENERATING) + count(READY) = 3 exceeds prefetchSize = 2. -/
theorem prefetch_bound_violated_by_enqueue :
    rapidEnqueueState.prefetchSize = 2 ∧
    countGR rapidEnqueueState.queue = 3 ∧
    ¬ countGR rapidEnqueueState.queue ≤ rapidEnqueueState.prefetchSize := by
  decide

theorem setStatus_map_id (i : Nat) (st : QueueItemStatus)
    (q : List QueueItem) :
    (setStatus i st q).map (fun it => it.id) = q.map (fun it => it.id) := by
  unfold setStatus
  rw [List.map_map]
  congr 1
  funext it
  by_cases h : it.id = i <;> simp [h]

theorem setStatus_id_not_mem (i : Nat) (st : QueueItemStatus)
    (q : List QueueItem) (h : i ∉ q.map (fun it => it.id)) :
    setStatus i st q = q := by
  induction q with
  | nil => rfl
  | cons hd tl ih =>
    have hhd : hd.id ≠ i := by
      intro hcontra
      exact h (by simp [hcontra])
    have htl : i ∉ tl.map (fun it => it.id) := by
      intro hcontra
      exact h (by simp [hcontra])
    simp only [setStatus, List.map_cons] at ih ⊢
    rw [if_neg hhd, ih htl]

theorem setStatus_cons (i : Nat) (st : QueueItemStatus) (hd : QueueItem)
    (tl : List QueueItem) :
    setStatus i st (hd :: tl) =
      (if hd.id = i then { hd with status := st } else hd) ::
        setStatus i st tl := rfl

theorem countGR_setStatus_generating_le (i : Nat) (q : List QueueItem)
    (h : (q.map (fun it => it.id)).Nodup) :
    countGR (setStatus i QueueItemStatus.generating q) ≤ countGR q + 1 := by
  induction q with
  | nil => simp [setStatus, countGR]
  | cons hd tl ih =>
    have hcons : (∀ x ∈ tl, ¬ x.id = hd.id) ∧
        (tl.map (fun it => it.id)).Nodup := by simpa using h
    have ihtl := ih hcons.2
    rw [setStatus_cons]
    by_cases hid : hd.id = i
    · have hni : i ∉ tl.map (fun it => it.id) := by
        intro hmem
        rcases List.mem_map.mp hmem with ⟨x, hx, hxid⟩
        exact hcons.1 x hx (by rw [hxid, hid])
      rw [if_pos hid, setStatus_id_not_mem i QueueItemStatus.generating tl hni]
      simp only [countGR, List.countP_cons]
      simp
    · rw [if_neg hid]
      simp only [countGR, List.countP_cons] at ihtl ⊢
      omega

theorem startGen_queue (s : MState) (i : Nat) :
    (startGen s i).queue = setStatus i QueueItemStatus.generating s.queue := by
  simp [startGen, updateItemStatus, addEvent]

theorem countGR_foldl_startGen_le (ids : List Nat) (s : MState)
    (h : (s.queue.map (fun it => it.id)).Nodup) :
    countGR ((ids.foldl startGen s).queue) ≤ countGR s.queue + ids.length := by
  induction ids generalizing s with
  | nil => simp
  | cons hd tl ih =>
    have h1 : ((startGen s hd).queue.map (fun it => it.id)).Nodup := by
      rw [startGen_queue, setStatus_map_id]
      exact h
    have h2 := ih (startGen s hd) h1
    have h3 : countGR ((startGen s hd).queue) ≤ countGR s.queue + 1 := by
      rw [startGen_queue]
      exact countGR_setStatus_generating_le hd s.queue h
    simp only [List.foldl_cons, List.length_cons]
    omega

/-- C2 amended: the bound holds for the prefetch pass itself, not for
the queue at every instant — prefetchAudio starts at most
prefetchSize - count(GENERATING or READY) generations, so a prefetch
pass never pushes count(GENERATING) + count(READY) beyond prefetchSize
unless it already exceeded it (which enqueueQuery's unconditional
generation start can cause, see the counterexample). -/
theorem prefetch_pass_respects_bound (s : MState)
    (h : (s.queue.map (fun it => it.id)).Nodup) :
    countGR (prefetchAudio s).queue
      ≤ max (countGR s.queue) s.prefetchSize := by
  have hpa : prefetchAudio s =
      (((s.queue.filter
          (fun it => decide (it.status = QueueItemStatus.pending))).map
            (fun it => it.id)).take
        (s.prefetchSize - countGR s.queue)).foldl startGen s := rfl
  have hfold := countGR_foldl_startGen_le
    (((s.queue.filter
        (fun it => decide (it.status = QueueItemStatus.pending))).map
          (fun it => it.id)).take
      (s.prefetchSize - countGR s.queue)) s h
  have hlen : (((s.queue.filter
      (fun it => decide (it.status = QueueItemStatus.pending))).map
        (fun it => it.id)).take
      (s.prefetchSize - countGR s.queue)).length
      ≤ s.prefetchSize - countGR s.queue := by
    simp [List.length_take]
  rw [hpa]
  omega

theorem prefetch_pass_respects_bound_witness :
    ((pendingWitnessState.queue.map (fun it => it.id)).Nodup) ∧
    countGR (prefetchAudio pendingWitnessState).queue
      ≤ max (countGR pendingWitnessState.queue)
          pendingWitnessState.prefetchSize :=
  ⟨by decide, prefetch_pass_respects_bound pendingWitnessState (by decide)⟩

/-- C9: when invoked on an item that is not PENDING, both generateAudio
and generateAudioFromQuery return immediately: the item's fields are
unchanged, no collaborator call is made, no status callback is issued
and nothing is thrown, whatever the collaborators would have done. -/
theorem generator_noop_when_not_pending (it : QueueItem)
    (q1 s1 v1 s2 v2 : Bool) (h : it.status ≠ QueueItemStatus.pending) :
    generateAudio it q1 s1 v1 = ⟨it, [], [], false⟩ ∧
    generateAudioFromQuery it s2 v2 = ⟨it, [], [], false⟩ := by
  constructor
  · unfold generateAudio
    rw [if_neg h]
  · unfold generateAudioFromQuery
    rw [if_neg (fun hconj => h hconj.1)]

theorem generator_noop_when_not_pending_witness :
    (playingWitnessItem.status ≠ QueueItemStatus.pending) ∧
    generateAudio playingWitnessItem true true true
      = ⟨playingWitnessItem, [], [], false⟩ ∧
    generateAudioFromQuery playingWitnessItem true true
      = ⟨playingWitnessItem, [], [], false⟩ :=
  ⟨by decide,
   generator_noop_when_not_pending playingWitnessItem true true true true true
     (by decide)⟩

theorem removeItem_effects_mono (i : Nat) (s : MState) (x : Effect)
    (h : x ∈ s.effects) : x ∈ ((removeItem i s).2).effects := by
  unfold removeItem
  cases hfind : findItem i s.queue with
  | none => exact h
  | some it =>
    cases htf : it.tempFile with
    | none => simpa [addEvent, addEffect, htf] using h
    | some p =>
      simp only [htf, addEvent, addEffect]
      exact List.mem_append_left _ h

theorem removeAll_effects_mono (ids : List Nat) (s : MState) (x : Effect)
    (h : x ∈ s.effects) : x ∈ (removeAll ids s).effects := by
  induction ids generalizing s with
  | nil => exact h
  | cons hd tl ih =>
    exact ih ((removeItem hd s).2) (removeItem_effects_mono hd s x h)

theorem removeItem_found_head (s : MState) (hd : QueueItem)
    (tl : List QueueItem) (hq : s.queue = hd :: tl) :
    ((removeItem hd.id s).2).queue = tl ∧
    (∀ p, hd.tempFile = some p →
      Effect.deleteFile p ∈ ((removeItem hd.id s).2).effects) := by
  have hfind : findItem hd.id s.queue = some hd := by
    rw [hq]
    unfold findItem
    exact List.find?_cons_of_pos _ (by simp)
  cases htf : hd.tempFile with
  | none =>
    constructor
    · simp only [removeItem, hfind, htf, addEvent]
      rw [hq]
      simp [removeFirst]
    · intro p hp
      cases hp
  | some p =>
    constructor
    · simp only [removeItem, hfind, htf, addEvent, addEffect]
      rw [hq]
      simp [removeFirst]
    · intro p2 hp2
      injection hp2 with hpe
      subst hpe
      simp [removeItem, hfind, htf, addEvent, addEffect]

theorem removeAll_clears_and_deletes (q : List QueueItem) :
    ∀ s : MState, s.queue = q →
      (removeAll (q.map (fun it => it.id)) s).queue = [] ∧
      (∀ it ∈ q, ∀ p, it.tempFile = some p →
        Effect.deleteFile p ∈ (removeAll (q.map (fun it => it.id)) s).effects) := by
  induction q with
  | nil =>
    intro s _
    constructor
    · simpa [removeAll]
    · intro it hmem
      cases hmem
  | cons hd tl ih =>
    intro s hq
    have hhead := removeItem_found_head s hd tl hq
    have hrest := ih ((removeItem hd.id s).2) hhead.1
    have hfold : removeAll ((hd :: tl).map (fun it => it.id)) s
        = removeAll (tl.map (fun it => it.id)) ((removeItem hd.id s).2) := by
      simp [removeAll]
    constructor
    · rw [hfold]
      exact hrest.1
    · intro it hmem p hp
      rw [hfold]
      rcases List.mem_cons.mp hmem with hcase | hcase
      · subst hcase
        exact removeAll_effects_mono _ _ _ (hhead.2 p hp)
      · exact hrest.2 it hcase p hp

/-- C5: after clearQueue the live collection is empty, the playback
flags and the currently-playing reference are reset, QUEUE_CLEARED is
emitted, and a deletion was attempted for the artifact of every item
that was in the queue — whatever state (GENERATING, PLAYING, ...) each
item was in when clearQueue was called. -/
theorem clearQueue_spec (s : MState) :
    (clearQueue s).queue = [] ∧
    (clearQueue s).isPlaying = false ∧
    (clearQueue s).isPaused = false ∧
    (clearQueue s).current = none ∧
    QueueEvent.queueCleared ∈ (clearQueue s).events ∧
    (∀ it ∈ s.queue, ∀ p, it.tempFile = some p →
      Effect.deleteFile p ∈ (clearQueue s).effects) := by
  have hall := removeAll_clears_and_deletes s.queue s rfl
  refine ⟨rfl, rfl, rfl, rfl, ?_, ?_⟩
  · simp [clearQueue, addEvent]
  · intro it hmem p hp
    have := hall.2 it hmem p hp
    simpa [clearQueue, addEvent] using this

theorem clearQueue_spec_witness :
    (clearQueue mixedWitnessState).queue = [] ∧
    (clearQueue mixedWitnessState).isPlaying = false ∧
    (clearQueue mixedWitnessState).isPaused = false ∧
    (clearQueue mixedWitnessState).current = none ∧
    QueueEvent.queueCleared ∈ (clearQueue mixedWitnessState).events ∧
    (∀ it ∈ mixedWitnessState.queue, ∀ p, it.tempFile = some p →
      Effect.deleteFile p ∈ (clearQueue mixedWitnessState).effects) :=
  clearQueue_spec mixedWitnessState

theorem setTempFile_map_id (i p : Nat) (q : List QueueItem) :
    (setTempFile i p q).map (fun it => it.id) = q.map (fun it => it.id) := by
  unfold setTempFile
  rw [List.map_map]
  congr 1
  funext it
  by_cases h : it.id = i <;> simp [h]

theorem setErrorFlag_map_id (i : Nat) (q : List QueueItem) :
    (setErrorFlag i q).map (fun it => it.id) = q.map (fun it => it.id) := by
  unfold setErrorFlag
  rw [List.map_map]
  congr 1
  funext it
  by_cases h : it.id = i <;> simp [h]

theorem invA_of_pointwise (q q' : List QueueItem) (c : Option Nat)
    (hpt : ∀ it2 ∈ q', ∃ it ∈ q,
      it2.id = it.id ∧ (isPP it2 = true → isPP it = true))
    (h : ∀ it ∈ q, isPP it = true → c = some it.id) :
    ∀ it2 ∈ q', isPP it2 = true → c = some it2.id := by
  intro it2 hm hpp
  rcases hpt it2 hm with ⟨it, hit, hid, himp⟩
  rw [hid]
  exact h it hit (himp hpp)

theorem pointwise_setStatus_nonPP (i : Nat) (st : QueueItemStatus)
    (hst1 : st ≠ QueueItemStatus.playing) (hst2 : st ≠ QueueItemStatus.paused)
    (q : List QueueItem) :
    ∀ it2 ∈ setStatus i st q, ∃ it ∈ q,
      it2.id = it.id ∧ (isPP it2 = true → isPP it = true) := by
  intro it2 hm
  rcases List.mem_map.mp hm with ⟨it, hit, hf⟩
  by_cases hid : it.id = i
  · refine ⟨it, hit, ?_, ?_⟩
    · rw [← hf, if_pos hid]
    · intro hpp
      rw [← hf, if_pos hid] at hpp
      simp [isPP, hst1, hst2] at hpp
  · refine ⟨it, hit, ?_, ?_⟩
    · rw [← hf, if_neg hid]
    · intro hpp
      rw [← hf, if_neg hid] at hpp
      exact hpp

theorem pointwise_setTempFile (i p : Nat) (q : List QueueItem) :
    ∀ it2 ∈ setTempFile i p q, ∃ it ∈ q,
      it2.id = it.id ∧ (isPP it2 = true → isPP it = true) := by
  intro it2 hm
  rcases List.mem_map.mp hm with ⟨it, hit, hf⟩
  by_cases hid : it.id = i
  · refine ⟨it, hit, ?_, ?_⟩
    · rw [← hf, if_pos hid]
    · intro hpp
      rw [← hf, if_pos hid] at hpp
      simpa [isPP] using hpp
  · refine ⟨it, hit, ?_, ?_⟩
    · rw [← hf, if_neg hid]
    · intro hpp
      rw [← hf, if_neg hid] at hpp
      exact hpp

theorem pointwise_setErrorFlag (i : Nat) (q : List QueueItem) :
    ∀ it2 ∈ setErrorFlag i q, ∃ it ∈ q,
      it2.id = it.id ∧ (isPP it2 = true → isPP it = true) := by
  intro it2 hm
  rcases List.mem_map.mp hm with ⟨it, hit, hf⟩
  by_cases hid : it.id = i
  · refine ⟨it, hit, ?_, ?_⟩
    · rw [← hf, if_pos hid]
    · intro hpp
      rw [← hf, if_pos hid] at hpp
      simpa [isPP] using hpp
  · refine ⟨it, hit, ?_, ?_⟩
    · rw [← hf, if_neg hid]
    · intro hpp
      rw [← hf, if_neg hid] at hpp
      exact hpp

theorem idBound_of_map_id_eq (q q' : List QueueItem) (n : Nat)
    (hmap : q'.map (fun it => it.id) = q.map (fun it => it.id))
    (h : ∀ it ∈ q, it.id < n) : ∀ it2 ∈ q', it2.id < n := by
  intro it2 hmem
  have hm2 : it2.id ∈ q'.map (fun it => it.id) :=
    List.mem_map_of_mem _ hmem
  rw [hmap] at hm2
  rcases List.mem_map.mp hm2 with ⟨it, hit, hid⟩
  exact hid ▸ h it hit

theorem removeFirst_sublist (i : Nat) (q : List QueueItem) :
    List.Sublist (removeFirst i q) q := by
  induction q with
  | nil => simp [removeFirst]
  | cons hd tl ih =>
    simp only [removeFirst]
    split
    · exact List.sublist_cons_self hd tl
    · exact List.Sublist.cons₂ hd ih

theorem removeItem_queue_sublist (i : Nat) (s : MState) :
    List.Sublist ((removeItem i s).2).queue s.queue := by
  unfold removeItem
  cases hf : findItem i s.queue with
  | none => exact List.Sublist.refl _
  | some it =>
    cases htf : it.tempFile <;>
      simpa [addEvent, addEffect, htf] using removeFirst_sublist i s.queue

theorem removeItem_nextId (i : Nat) (s : MState) :
    ((removeItem i s).2).nextId = s.nextId := by
  unfold removeItem
  cases hf : findItem i s.queue with
  | none => rfl
  | some it => cases htf : it.tempFile <;> simp [addEvent, addEffect, htf]

theorem removeItem_current_of_none (i : Nat) (s : MState)
    (h : s.current = none) : ((removeItem i s).2).current = none := by
  unfold removeItem
  cases hf : findItem i s.queue with
  | none => exact h
  | some it => cases htf : it.tempFile <;> simp [addEvent, addEffect, htf, h]

theorem noPP_setStatus_terminal (i : Nat) (st : QueueItemStatus)
    (hst1 : st ≠ QueueItemStatus.playing) (hst2 : st ≠ QueueItemStatus.paused)
    (q : List QueueItem) (c : Option Nat) (hc : c = some i)
    (hA : ∀ it ∈ q, isPP it = true → c = some it.id) :
    ∀ it2 ∈ setStatus i st q, isPP it2 = false := by
  intro it2 hm
  rcases List.mem_map.mp hm with ⟨it, hit, hf⟩
  by_cases hid : it.id = i
  · rw [← hf, if_pos hid]
    simp [isPP, hst1, hst2]
  · rw [← hf, if_neg hid]
    cases hpp : isPP it with
    | false => rfl
    | true =>
      have hcur := hA it hit hpp
      rw [hc] at hcur
      injection hcur with he
      exact absurd he.symm hid

theorem countPP_le_one_of_inv (q : List QueueItem) (c : Option Nat)
    (hA : ∀ it ∈ q, isPP it = true → c = some it.id)
    (hnd : (q.map (fun it => it.id)).Nodup) :
    countPP q ≤ 1 := by
  induction q with
  | nil => simp [countPP]
  | cons hd tl ih =>
    have hcons : (∀ x ∈ tl, ¬ x.id = hd.id) ∧
        (tl.map (fun it => it.id)).Nodup := by simpa using hnd
    by_cases hpp : isPP hd = true
    · have hc := hA hd (by simp) hpp
      have htl0 : countPP tl = 0 := by
        unfold countPP
        rw [List.countP_eq_zero]
        intro x hx hppx
        have hcx := hA x (List.mem_cons_of_mem hd hx) hppx
        rw [hc] at hcx
        injection hcx with he
        exact hcons.1 x hx he.symm
      unfold countPP at htl0 ⊢
      rw [List.countP_cons, if_pos hpp]
      omega
    · have hrec := ih (fun it hm hp => hA it (List.mem_cons_of_mem hd hm) hp)
        hcons.2
      unfold countPP at hrec ⊢
      rw [List.countP_cons, if_neg hpp]
      omega

theorem invA_setStatus_current (i : Nat) (st : QueueItemStatus)
    (q : List QueueItem) (c : Option Nat) (hc : c = some i)
    (hA : ∀ it ∈ q, isPP it = true → c = some it.id) :
    ∀ it2 ∈ setStatus i st q, isPP it2 = true → c = some it2.id := by
  intro it2 hm hpp
  rcases List.mem_map.mp hm with ⟨it, hit, hf⟩
  by_cases hid : it.id = i
  · rw [← hf, if_pos hid]
    simpa [hid] using hc
  · rw [← hf, if_neg hid]
    rw [← hf, if_neg hid] at hpp
    exact hA it hit hpp

theorem invA_playStart (rid : Nat) (q : List QueueItem)
    (hnone : ∀ x ∈ q, isPP x = false) :
    ∀ it2 ∈ setStatus rid QueueItemStatus.playing q, isPP it2 = true →
      (some rid : Option Nat) = some it2.id := by
  intro it2 hm hpp
  rcases List.mem_map.mp hm with ⟨it, hit, hf⟩
  by_cases hid : it.id = rid
  · rw [← hf, if_pos hid]
    simp [hid]
  · rw [← hf, if_neg hid] at hpp
    rw [hnone it hit] at hpp
    cases hpp

theorem noPP_of_current_none (q : List QueueItem) (c : Option Nat)
    (hc : c = none) (hA : ∀ it ∈ q, isPP it = true → c = some it.id) :
    ∀ x ∈ q, isPP x = false := by
  intro x hx
  cases hpp : isPP x with
  | false => rfl
  | true =>
    have := hA x hx hpp
    rw [hc] at this
    cases this

theorem playInv_enqueue (sp : Nat) (s : MState) (h : PlayInv s) :
    PlayInv (enqueueQuery sp s) := by
  obtain ⟨hA, hND, hB⟩ := h
  have hq : (enqueueQuery sp s).queue
      = setStatus s.nextId QueueItemStatus.generating
          (s.queue ++ [⟨s.nextId, sp, QueueItemStatus.pending, true, none,
            false⟩]) := rfl
  have hcur : (enqueueQuery sp s).current = s.current := rfl
  have hnid : (enqueueQuery sp s).nextId = s.nextId + 1 := rfl
  have hext : ∀ it ∈ (s.queue ++
      [(⟨s.nextId, sp, QueueItemStatus.pending, true, none,
        false⟩ : QueueItem)]),
      isPP it = true → s.current = some it.id := by
    intro it hmem hppit
    rcases List.mem_append.mp hmem with hin | hin
    · exact hA it hin hppit
    · have hit : it = ⟨s.nextId, sp, QueueItemStatus.pending, true, none,
          false⟩ := by simpa using hin
      rw [hit] at hppit
      simp [isPP] at hppit
  have hbase : ∀ it ∈ (s.queue ++
      [(⟨s.nextId, sp, QueueItemStatus.pending, true, none,
        false⟩ : QueueItem)]),
      it.id < s.nextId + 1 := by
    intro it hmem
    rcases List.mem_append.mp hmem with hin | hin
    · have := hB it hin
      omega
    · have hit : it = ⟨s.nextId, sp, QueueItemStatus.pending, true, none,
          false⟩ := by simpa using hin
      rw [hit]
      show s.nextId < s.nextId + 1
      omega
  refine ⟨?_, ?_, ?_⟩
  · intro it2 hm hpp
    rw [hq] at hm
    rw [hcur]
    exact invA_of_pointwise _ _ s.current
      (pointwise_setStatus_nonPP s.nextId QueueItemStatus.generating
        (by decide) (by decide) _) hext it2 hm hpp
  · rw [hq, setStatus_map_id, List.map_append]
    refine List.Nodup.append hND (by simp) ?_
    intro a ha hb
    simp at hb
    subst hb
    rcases List.mem_map.mp ha with ⟨it, hit, hid⟩
    have := hB it hit
    omega
  · intro it2 hm
    rw [hq] at hm
    rw [hnid]
    exact idBound_of_map_id_eq _ _ (s.nextId + 1)
      (setStatus_map_id _ _ _) hbase it2 hm

theorem playInv_startGen (s : MState) (i : Nat) (h : PlayInv s) :
    PlayInv (startGen s i) := by
  obtain ⟨hA, hND, hB⟩ := h
  refine ⟨?_, ?_, ?_⟩
  · exact invA_of_pointwise s.queue _ s.current
      (pointwise_setStatus_nonPP i QueueItemStatus.generating
        (by decide) (by decide) s.queue) hA
  · show ((setStatus i QueueItemStatus.generating s.queue).map
      (fun it => it.id)).Nodup
    rw [setStatus_map_id]
    exact hND
  · exact idBound_of_map_id_eq s.queue _ s.nextId (setStatus_map_id _ _ _) hB

theorem playInv_prefetch_fold (ids : List Nat) (s : MState) (h : PlayInv s) :
    PlayInv (ids.foldl startGen s) := by
  induction ids generalizing s with
  | nil => exact h
  | cons hd tl ih => exact ih (startGen s hd) (playInv_startGen s hd h)

theorem playInv_prefetch (s : MState) (h : PlayInv s) :
    PlayInv (prefetchAudio s) :=
  playInv_prefetch_fold _ s h

theorem playInv_startPlayback (s : MState) (h : PlayInv s) :
    PlayInv (startPlayback s) := by
  obtain ⟨hA, hND, hB⟩ := h
  unfold startPlayback
  cases hps : s.isPlaying
  · exact ⟨hA, hND, hB⟩
  · exact ⟨hA, hND, hB⟩

theorem playInv_genOk (i : Nat) (s : MState) (h : PlayInv s) :
    PlayInv (genOk i s) := by
  obtain ⟨hA, hND, hB⟩ := h
  unfold genOk
  cases hf : findItem i s.queue with
  | none => exact ⟨hA, hND, hB⟩
  | some it =>
    show PlayInv (if it.status = QueueItemStatus.generating then
        updateItemStatus i QueueItemStatus.ready
          { s with queue := setTempFile i i s.queue }
      else s)
    by_cases hst : it.status = QueueItemStatus.generating
    · rw [if_pos hst]
      refine ⟨?_, ?_, ?_⟩
      · intro it2 hm hpp
        exact invA_of_pointwise _ _ s.current
          (pointwise_setStatus_nonPP i QueueItemStatus.ready
            (by decide) (by decide) _)
          (invA_of_pointwise s.queue _ s.current
            (pointwise_setTempFile i i s.queue) hA) it2 hm hpp
      · show ((setStatus i QueueItemStatus.ready
          (setTempFile i i s.queue)).map (fun it => it.id)).Nodup
        rw [setStatus_map_id, setTempFile_map_id]
        exact hND
      · intro it2 hm
        refine idBound_of_map_id_eq s.queue _ s.nextId ?_ hB it2 hm
        show List.map (fun it => it.id)
            (setStatus i QueueItemStatus.ready (setTempFile i i s.queue))
          = List.map (fun it => it.id) s.queue
        rw [setStatus_map_id, setTempFile_map_id]
    · rw [if_neg hst]
      exact ⟨hA, hND, hB⟩

theorem playInv_genFail (i : Nat) (s : MState) (h : PlayInv s) :
    PlayInv (genFail i s) := by
  obtain ⟨hA, hND, hB⟩ := h
  unfold genFail
  cases hf : findItem i s.queue with
  | none => exact ⟨hA, hND, hB⟩
  | some it =>
    show PlayInv (if it.status = QueueItemStatus.generating then
        addEffect Effect.consoleLog
          (updateItemStatus i QueueItemStatus.error
            { s with queue := setErrorFlag i s.queue })
      else s)
    by_cases hst : it.status = QueueItemStatus.generating
    · rw [if_pos hst]
      refine ⟨?_, ?_, ?_⟩
      · intro it2 hm hpp
        exact invA_of_pointwise _ _ s.current
          (pointwise_setStatus_nonPP i QueueItemStatus.error
            (by decide) (by decide) _)
          (invA_of_pointwise s.queue _ s.current
            (pointwise_setErrorFlag i s.queue) hA) it2 hm hpp
      · show ((setStatus i QueueItemStatus.error
          (setErrorFlag i s.queue)).map (fun it => it.id)).Nodup
        rw [setStatus_map_id, setErrorFlag_map_id]
        exact hND
      · intro it2 hm
        refine idBound_of_map_id_eq s.queue _ s.nextId ?_ hB it2 hm
        show List.map (fun it => it.id)
            (setStatus i QueueItemStatus.error (setErrorFlag i s.queue))
          = List.map (fun it => it.id) s.queue
        rw [setStatus_map_id, setErrorFlag_map_id]
    · rw [if_neg hst]
      exact ⟨hA, hND, hB⟩

theorem playInv_addEvent (e : QueueEvent) (s : MState) (h : PlayInv s) :
    PlayInv (addEvent e s) := h

theorem playInv_addEffect (e : Effect) (s : MState) (h : PlayInv s) :
    PlayInv (addEffect e s) := h

theorem playInv_removeItem_of_noPP (i : Nat) (t : MState)
    (hnoPP : ∀ it ∈ t.queue, isPP it = false)
    (hnd : (t.queue.map (fun it => it.id)).Nodup)
    (hb : ∀ it ∈ t.queue, it.id < t.nextId) :
    PlayInv ((removeItem i t).2) := by
  have hsub := removeItem_queue_sublist i t
  refine ⟨?_, ?_, ?_⟩
  · intro it2 hm hpp
    rw [hnoPP it2 (hsub.subset hm)] at hpp
    cases hpp
  · exact List.Sublist.nodup (hsub.map (fun it => it.id)) hnd
  · intro it2 hm
    rw [removeItem_nextId]
    exact hb it2 (hsub.subset hm)

theorem playInv_removeItem_clear_current (i : Nat) (t : MState)
    (hnoPP : ∀ it ∈ t.queue, isPP it = false)
    (hnd : (t.queue.map (fun it => it.id)).Nodup)
    (hb : ∀ it ∈ t.queue, it.id < t.nextId) :
    PlayInv { (removeItem i t).2 with current := none } := by
  have hsub := removeItem_queue_sublist i t
  refine ⟨?_, ?_, ?_⟩
  · intro it2 hm hpp
    rw [hnoPP it2 (hsub.subset hm)] at hpp
    cases hpp
  · exact List.Sublist.nodup (hsub.map (fun it => it.id)) hnd
  · intro it2 hm
    show it2.id < ((removeItem i t).2).nextId
    rw [removeItem_nextId]
    exact hb it2 (hsub.subset hm)

theorem playInv_pause (s : MState) (h : PlayInv s) :
    PlayInv (pausePlayback s) := by
  obtain ⟨hA, hND, hB⟩ := h
  unfold pausePlayback
  split
  · dsimp only
    split
    · next i hcs =>
      have hc : s.current = some i := hcs
      refine ⟨?_, ?_, ?_⟩
      · intro it2 hm hpp
        exact invA_setStatus_current i QueueItemStatus.paused s.queue
          s.current hc hA it2 hm hpp
      · show ((setStatus i QueueItemStatus.paused s.queue).map
          (fun it => it.id)).Nodup
        rw [setStatus_map_id]
        exact hND
      · intro it2 hm
        exact idBound_of_map_id_eq s.queue _ s.nextId
          (setStatus_map_id _ _ _) hB it2 hm
    · exact ⟨hA, hND, hB⟩
  · exact ⟨hA, hND, hB⟩

theorem playInv_resume (s : MState) (h : PlayInv s) :
    PlayInv (resumePlayback s) := by
  obtain ⟨hA, hND, hB⟩ := h
  unfold resumePlayback
  split
  · dsimp only
    split
    · next i hcs =>
      have hc : s.current = some i := hcs
      refine ⟨?_, ?_, ?_⟩
      · intro it2 hm hpp
        exact invA_setStatus_current i QueueItemStatus.playing s.queue
          s.current hc hA it2 hm hpp
      · show ((setStatus i QueueItemStatus.playing s.queue).map
          (fun it => it.id)).Nodup
        rw [setStatus_map_id]
        exact hND
      · intro it2 hm
        exact idBound_of_map_id_eq s.queue _ s.nextId
          (setStatus_map_id _ _ _) hB it2 hm
    · exact ⟨hA, hND, hB⟩
  · exact ⟨hA, hND, hB⟩

theorem playInv_procQ (s : MState) (h : PlayInv s) :
    PlayInv (processQueueStep s) := by
  obtain ⟨hA, hND, hB⟩ := h
  unfold processQueueStep
  split
  · next hc0 =>
    split
    · next it hfr =>
      split
      · next p htf =>
        have hnone : ∀ x ∈ s.queue, isPP x = false :=
          noPP_of_current_none s.queue s.current hc0 hA
        refine ⟨?_, ?_, ?_⟩
        · intro it2 hm hpp
          exact invA_playStart it.id s.queue hnone it2 hm hpp
        · show ((setStatus it.id QueueItemStatus.playing s.queue).map
            (fun it => it.id)).Nodup
          rw [setStatus_map_id]
          exact hND
        · intro it2 hm
          exact idBound_of_map_id_eq s.queue _ s.nextId
            (setStatus_map_id _ _ _) hB it2 hm
      · exact ⟨hA, hND, hB⟩
    · exact ⟨hA, hND, hB⟩
  · exact ⟨hA, hND, hB⟩

theorem playInv_playNext (s : MState) (h : PlayInv s) :
    PlayInv (playNextStep s) := by
  obtain ⟨hA, hND, hB⟩ := h
  unfold playNextStep
  dsimp only
  split
  · exact ⟨hA, hND, hB⟩
  · next hc0 =>
    have hc : s.current = none := hc0
    split
    · next it hfr =>
      split
      · next p htf =>
        have hnone : ∀ x ∈ s.queue, isPP x = false :=
          noPP_of_current_none s.queue s.current hc hA
        refine ⟨?_, ?_, ?_⟩
        · intro it2 hm hpp
          exact invA_playStart it.id s.queue hnone it2 hm hpp
        · show ((setStatus it.id QueueItemStatus.playing s.queue).map
            (fun it => it.id)).Nodup
          rw [setStatus_map_id]
          exact hND
        · intro it2 hm
          exact idBound_of_map_id_eq s.queue _ s.nextId
            (setStatus_map_id _ _ _) hB it2 hm
      · exact ⟨hA, hND, hB⟩
    · exact ⟨hA, hND, hB⟩

theorem playInv_finOk (s : MState) (h : PlayInv s) :
    PlayInv (playFinishOk s) := by
  obtain ⟨hA, hND, hB⟩ := h
  unfold playFinishOk
  split
  · exact ⟨hA, hND, hB⟩
  · next i hc =>
    refine playInv_addEvent _ _ (playInv_removeItem_of_noPP i _ ?_ ?_ ?_)
    · intro it2 hm
      exact noPP_setStatus_terminal i QueueItemStatus.done (by decide)
        (by decide) s.queue s.current hc hA it2 hm
    · show ((setStatus i QueueItemStatus.done s.queue).map
        (fun it => it.id)).Nodup
      rw [setStatus_map_id]
      exact hND
    · intro it2 hm
      exact idBound_of_map_id_eq s.queue _ s.nextId
        (setStatus_map_id _ _ _) hB it2 hm

theorem playInv_finErr (s : MState) (h : PlayInv s) :
    PlayInv (playFinishErr s) := by
  obtain ⟨hA, hND, hB⟩ := h
  unfold playFinishErr
  split
  · exact ⟨hA, hND, hB⟩
  · next i hc =>
    have hA2 : ∀ it ∈ setErrorFlag i s.queue, isPP it = true →
        s.current = some it.id :=
      invA_of_pointwise s.queue _ s.current
        (pointwise_setErrorFlag i s.queue) hA
    refine playInv_removeItem_clear_current i _ ?_ ?_ ?_
    · intro it2 hm
      exact noPP_setStatus_terminal i QueueItemStatus.error (by decide)
        (by decide) (setErrorFlag i s.queue) s.current hc hA2 it2 hm
    · show ((setStatus i QueueItemStatus.error
        (setErrorFlag i s.queue)).map (fun it => it.id)).Nodup
      rw [setStatus_map_id, setErrorFlag_map_id]
      exact hND
    · intro it2 hm
      refine idBound_of_map_id_eq s.queue _ s.nextId ?_ hB it2 hm
      show List.map (fun it => it.id)
          (setStatus i QueueItemStatus.error (setErrorFlag i s.queue))
        = List.map (fun it => it.id) s.queue
      rw [setStatus_map_id, setErrorFlag_map_id]

theorem playInv_applyOp (s : MState) (o : QOp) (h : PlayInv s) :
    PlayInv (applyOp s o) := by
  cases o with
  | enq sp => exact playInv_enqueue sp s h
  | gok i => exact playInv_genOk i s h
  | gfail i => exact playInv_genFail i s h
  | startPB => exact playInv_startPlayback s h
  | pausePB => exact playInv_pause s h
  | resumePB => exact playInv_resume s h
  | procQ => exact playInv_procQ s h
  | playNextQ => exact playInv_playNext s h
  | finOk => exact playInv_finOk s h
  | finErr => exact playInv_finErr s h
  | prefetchQ => exact playInv_prefetch s h

theorem playInv_init (ps : Nat) : PlayInv (initState ps) := by
  refine ⟨?_, ?_, ?_⟩ <;> simp [initState]

theorem playInv_runOps (ops : List QOp) (ps : Nat) :
    PlayInv (runOps ops ps) := by
  unfold runOps
  suffices hgen : ∀ s, PlayInv s → PlayInv (ops.foldl applyOp s) from
    hgen _ (playInv_init ps)
  induction ops with
  | nil => intro s hs; exact hs
  | cons hd tl ih =>
    intro s hs
    exact ih (applyOp s hd) (playInv_applyOp s hd hs)

/-- C4: in every state reachable by any interleaving of enqueueText and
enqueueQuery calls with the steps of the generation and playback
machinery, at most one item of the live collection is PLAYING or PAUSED
(mutual exclusion of the playback slot across the whole queue). -/
theorem playing_paused_mutual_exclusion (ops : List QOp) (ps : Nat) :
    countPP (runOps ops ps).queue ≤ 1 := by
  obtain ⟨hA, hND, _⟩ := playInv_runOps ops ps
  exact countPP_le_one_of_inv _ _ hA hND

end Voicevox
